import Mathlib

/-!
Verification of the filtered reference-visitation core of
src/src/hotspot/share/gc/shared/genOopClosures.cpp.

The source file under src/ contains the two virtual entry points of
FilteringClosure (lines 31-32), each delegating to the non-virtual
do_oop_nv, and the conditionally compiled macro invocation
SPECIALIZED_OOP_OOP_ITERATE_CLOSURES_S (lines 34-37) guarded by
INCLUDE_SERIALGC (lines 27-29).  The body of do_oop_nv and the macro
expansion live in headers that are not part of src/; where they are
needed they are modelled from the spec, and each such definition says
so in its doc comment.

Semantics are given as traces: visiting a slot produces the list of
observable events (predicate evaluations and invocations of concrete
inner visitors), so call sequences, call counts and call arguments can
be stated and proved directly.
-/

set_option autoImplicit false

namespace GenOopClosures

/-- A reference slot as a raw location: its address and the raw word
stored there.  The same shape serves both physical encodings; which
decoding applies is determined by which entry point is invoked. -/
structure RawSlot where
  addr : Nat
  word : Nat
deriving DecidableEq, Repr

/-- Modelled from the spec: decoding a full-width slot word (spec 4.2
step 1; the body of FilteringClosure::do_oop_nv is not under src/).
The word 0 encodes the null reference; any other word is the referent
address itself. -/
def decode_oop (w : Nat) : Option Nat :=
  if w = 0 then none else some w

/-- Modelled from the spec: decoding a compressed (narrow) slot word.
The word 0 encodes null; otherwise the referent address is recovered
from the compression base and shift.  Base and shift are external
configuration, so they are explicit parameters. -/
def decode_narrow (base shiftAmt w : Nat) : Option Nat :=
  if w = 0 then none else some (base + w * 2 ^ shiftAmt)

/-- A reference slot together with its physical encoding: the two
entry-point families of spec 4.1 visit full-width and narrow slots
respectively. -/
inductive Slot where
  | full (s : RawSlot)
  | narrow (s : RawSlot)
deriving DecidableEq, Repr

/-- Observable events of one visitation:
predicate evaluation on a decoded referent (with its result), and
invocation of a concrete (non-filtering) visitor's entry point of
either encoding with the slot it received. -/
inductive Event where
  | predEval (referent : Nat) (result : Bool)
  | visitFull (visitorId : Nat) (s : RawSlot)
  | visitNarrow (visitorId : Nat) (s : RawSlot)
deriving DecidableEq, Repr

/-- A ReferenceVisitor (spec 4.1): either a concrete visitor,
identified by an id and observed through visit events, or a
FilteringVisitor decorating an inner visitor with a predicate over the
decoded referent (spec 4.2). -/
inductive Visitor where
  | plain (id : Nat)
  | filter (pred : Nat → Bool) (inner : Visitor)

/-- Modelled from the spec: the non-virtual per-slot body
FilteringClosure::do_oop_nv for the full-width encoding (spec 4.2):
decode the slot; on null do nothing; otherwise evaluate the predicate
on the decoded referent and, when it holds, forward the original slot
to the inner visitor's full-width entry point.  A concrete visitor
records its invocation. -/
def Visitor.do_oop_nv_full : Visitor → RawSlot → List Event
  | .plain id, s => [.visitFull id s]
  | .filter pred inner, s =>
      match decode_oop s.word with
      | none => []
      | some r =>
          .predEval r (pred r) ::
            (if pred r then Visitor.do_oop_nv_full inner s else [])

/-- Modelled from the spec: the non-virtual per-slot body
FilteringClosure::do_oop_nv for the compressed encoding; identical
policy, differing only in the decoding of the referent (spec 4.1). -/
def Visitor.do_oop_nv_narrow (base shiftAmt : Nat) : Visitor → RawSlot → List Event
  | .plain id, s => [.visitNarrow id s]
  | .filter pred inner, s =>
      match decode_narrow base shiftAmt s.word with
      | none => []
      | some r =>
          .predEval r (pred r) ::
            (if pred r then Visitor.do_oop_nv_narrow base shiftAmt inner s else [])

/-- The virtual full-width entry point.  Embeds src line 31:
FilteringClosure::do_oop(oop* p) is exactly a call to do_oop_nv(p). -/
def Visitor.do_oop_full (v : Visitor) (s : RawSlot) : List Event :=
  v.do_oop_nv_full s

/-- The virtual compressed entry point.  Embeds src line 32:
FilteringClosure::do_oop(narrowOop* p) is exactly a call to
do_oop_nv(p). -/
def Visitor.do_oop_narrow (base shiftAmt : Nat) (v : Visitor) (s : RawSlot) : List Event :=
  v.do_oop_nv_narrow base shiftAmt s

/-- Visit one slot through the virtual (generic) entry point of the
encoding the slot carries. -/
def Visitor.visitSlot (base shiftAmt : Nat) (v : Visitor) : Slot → List Event
  | .full s => v.do_oop_full s
  | .narrow s => v.do_oop_narrow base shiftAmt s

/-- Visit one slot through the non-virtual (statically dispatched)
entry point of the encoding the slot carries. -/
def Visitor.visitSlot_nv (base shiftAmt : Nat) (v : Visitor) : Slot → List Event
  | .full s => v.do_oop_nv_full s
  | .narrow s => v.do_oop_nv_narrow base shiftAmt s

/-- Modelled from the spec: the generic (virtual-dispatch) traversal
of one object layout — for each reference slot declared by the layout,
in the fixed layout-defined order, invoke the visitor's virtual entry
point of the slot's encoding (spec 4.3). -/
def oop_iterate_generic (base shiftAmt : Nat) (v : Visitor) : List Slot → List Event
  | [] => []
  | sl :: rest =>
      v.visitSlot base shiftAmt sl ++ oop_iterate_generic base shiftAmt v rest

/-- Modelled from the spec: the specialized traversal emitted by
SPECIALIZED_OOP_OOP_ITERATE_CLOSURES_S (src line 36) for a (layout,
visitor) pair — the same per-slot walk, but with the visitor's entry
point resolved statically (do_oop_nv instead of the virtual do_oop). -/
def oop_iterate_specialized (base shiftAmt : Nat) (v : Visitor) : List Slot → List Event
  | [] => []
  | sl :: rest =>
      v.visitSlot_nv base shiftAmt sl ++ oop_iterate_specialized base shiftAmt v rest

/-- Does this event record an invocation of the concrete visitor
with the given id (either encoding)? -/
def Event.isVisitOf (id : Nat) : Event → Bool
  | .visitFull j _ => j = id
  | .visitNarrow j _ => j = id
  | .predEval _ _ => false

/-- Is this event a predicate evaluation? -/
def Event.isPredEval : Event → Bool
  | .predEval _ _ => true
  | _ => false

/-- How many times a trace invokes the concrete visitor with the given
id. -/
def countForwards (id : Nat) (tr : List Event) : Nat :=
  tr.countP (Event.isVisitOf id)

/-- How many predicate evaluations a trace contains. -/
def countPredEvals (tr : List Event) : Nat :=
  tr.countP Event.isPredEval

/-- A stack of filtering decorators around a base visitor: each listed
predicate contributes one FilteringVisitor layer, outermost first. -/
def nestFilters : List (Nat → Bool) → Visitor → Visitor
  | [], v => v
  | p :: ps, v => .filter p (nestFilters ps v)

/-- Structural size of a visitor: one per decorator layer plus one for
the base visitor.  Bounds the work of one visit. -/
def Visitor.size : Visitor → Nat
  | .plain _ => 1
  | .filter _ inner => inner.size + 1

/-- Modelled from the spec: the build configuration relevant to this
file — whether the Serial GC collector variant is compiled in
(INCLUDE_SERIALGC, src lines 27-29 and 34-37). -/
structure BuildConfig where
  include_serialgc : Bool
deriving DecidableEq, Repr

/-- Modelled from the spec: the specialized traversal entry points the
generator emits under a given configuration.  Src lines 34-37 emit the
Serial GC specializations only when INCLUDE_SERIALGC holds; otherwise
nothing is emitted. -/
def emittedSpecializations (cfg : BuildConfig) :
    List (Nat → Nat → Visitor → List Slot → List Event) :=
  if cfg.include_serialgc then [oop_iterate_specialized] else []

/-- The persistent fields of a FilteringClosure: the predicate
configuration and the non-owning reference (an id) to the inner
visitor (spec 4.2, 3). -/
structure FilteringClosureFields where
  pred : Nat → Bool
  cl : Nat

/-- Modelled from the spec: FilteringVisitor.visit with all mutable
state threaded explicitly — the decorator's own fields, the inner
visitor's state (the inner visitor is a state transformer that may
also rewrite the slot word), and the slot word.  Parameterised by the
decoding function, so one definition covers both encodings.  Returns
the decorator fields, inner state and slot word as they stand after
the call. -/
def do_oop_stateful {σ : Type} (decode : Nat → Option Nat)
    (innerVisit : σ → Nat → σ × Nat)
    (fc : FilteringClosureFields) (st : σ) (w : Nat) :
    FilteringClosureFields × σ × Nat :=
  match decode w with
  | none => (fc, st, w)
  | some r =>
      if fc.pred r then
        let out := innerVisit st w
        (fc, out.1, out.2)
      else (fc, st, w)

/-! ### Helper lemmas shared by the claim theorems -/

theorem do_oop_nv_full_filter (p : Nat → Bool) (inner : Visitor) (s : RawSlot) (r : Nat)
    (h : decode_oop s.word = some r) :
    (Visitor.filter p inner).do_oop_nv_full s
      = Event.predEval r (p r) :: (if p r then inner.do_oop_nv_full s else []) := by
  simp [Visitor.do_oop_nv_full, h]

theorem do_oop_nv_full_filter_null (p : Nat → Bool) (inner : Visitor) (s : RawSlot)
    (h : decode_oop s.word = none) :
    (Visitor.filter p inner).do_oop_nv_full s = [] := by
  simp [Visitor.do_oop_nv_full, h]

theorem do_oop_nv_narrow_filter (base shiftAmt : Nat) (p : Nat → Bool) (inner : Visitor)
    (s : RawSlot) (r : Nat) (h : decode_narrow base shiftAmt s.word = some r) :
    (Visitor.filter p inner).do_oop_nv_narrow base shiftAmt s
      = Event.predEval r (p r) ::
          (if p r then inner.do_oop_nv_narrow base shiftAmt s else []) := by
  simp [Visitor.do_oop_nv_narrow, h]

theorem do_oop_nv_narrow_filter_null (base shiftAmt : Nat) (p : Nat → Bool) (inner : Visitor)
    (s : RawSlot) (h : decode_narrow base shiftAmt s.word = none) :
    (Visitor.filter p inner).do_oop_nv_narrow base shiftAmt s = [] := by
  simp [Visitor.do_oop_nv_narrow, h]

theorem countForwards_cons_predEval (id r : Nat) (b : Bool) (tr : List Event) :
    countForwards id (Event.predEval r b :: tr) = countForwards id tr := by
  simp [countForwards, List.countP_cons, Event.isVisitOf]

theorem countForwards_visitFull_self (id : Nat) (s : RawSlot) :
    countForwards id [Event.visitFull id s] = 1 := by
  simp [countForwards, List.countP_cons, Event.isVisitOf]

theorem countForwards_visitNarrow_self (id : Nat) (s : RawSlot) :
    countForwards id [Event.visitNarrow id s] = 1 := by
  simp [countForwards, List.countP_cons, Event.isVisitOf]

theorem countForwards_nestFilters_full (ps : List (Nat → Bool)) (innerId : Nat)
    (s : RawSlot) (r : Nat) (h : decode_oop s.word = some r) :
    countForwards innerId ((nestFilters ps (Visitor.plain innerId)).do_oop_nv_full s)
      = if ps.all (fun p => p r) then 1 else 0 := by
  induction ps with
  | nil =>
      simp [nestFilters, Visitor.do_oop_nv_full, countForwards, List.countP_cons,
        Event.isVisitOf]
  | cons p ps ih =>
      rw [nestFilters, do_oop_nv_full_filter p _ s r h, countForwards_cons_predEval]
      cases hp : p r
      · simp [hp, countForwards]
      · simpa [hp] using ih

theorem countForwards_nestFilters_narrow (base shiftAmt : Nat) (ps : List (Nat → Bool))
    (innerId : Nat) (s : RawSlot) (r : Nat)
    (h : decode_narrow base shiftAmt s.word = some r) :
    countForwards innerId
        ((nestFilters ps (Visitor.plain innerId)).do_oop_nv_narrow base shiftAmt s)
      = if ps.all (fun p => p r) then 1 else 0 := by
  induction ps with
  | nil =>
      simp [nestFilters, Visitor.do_oop_nv_narrow, countForwards, List.countP_cons,
        Event.isVisitOf]
  | cons p ps ih =>
      rw [nestFilters, do_oop_nv_narrow_filter base shiftAmt p _ s r h,
        countForwards_cons_predEval]
      cases hp : p r
      · simp [hp, countForwards]
      · simpa [hp] using ih

/-! ### Claim theorems -/

/-- Claim C1 (predicate gating): for a visited slot whose decoded referent is
non-null, the visit of FilteringVisitor, in either encoding, invokes the
visit of the inner visitor exactly once, passing the original slot, exactly
when the predicate evaluates true on the decoded referent; when the predicate
evaluates false the inner visit never happens, and no slot is ever
double-forwarded (the forward count is 1 on true, 0 on false, never more). -/
theorem C1_predicate_gating (p : Nat → Bool) (innerId : Nat) (sF sN : RawSlot)
    (base shiftAmt rF rN : Nat)
    (hF : decode_oop sF.word = some rF)
    (hN : decode_narrow base shiftAmt sN.word = some rN) :
    (countForwards innerId
        ((Visitor.filter p (Visitor.plain innerId)).do_oop_full sF)
      = if p rF then 1 else 0)
    ∧ (p rF = true →
        (Visitor.filter p (Visitor.plain innerId)).do_oop_full sF
          = [Event.predEval rF true, Event.visitFull innerId sF])
    ∧ (p rF = false →
        (Visitor.filter p (Visitor.plain innerId)).do_oop_full sF
          = [Event.predEval rF false])
    ∧ (countForwards innerId
        ((Visitor.filter p (Visitor.plain innerId)).do_oop_narrow base shiftAmt sN)
      = if p rN then 1 else 0)
    ∧ (p rN = true →
        (Visitor.filter p (Visitor.plain innerId)).do_oop_narrow base shiftAmt sN
          = [Event.predEval rN true, Event.visitNarrow innerId sN])
    ∧ (p rN = false →
        (Visitor.filter p (Visitor.plain innerId)).do_oop_narrow base shiftAmt sN
          = [Event.predEval rN false]) := by
  have eF := do_oop_nv_full_filter p (Visitor.plain innerId) sF rF hF
  have eN := do_oop_nv_narrow_filter base shiftAmt p (Visitor.plain innerId) sN rN hN
  refine ⟨?_, ?_, ?_, ?_, ?_, ?_⟩
  · rw [Visitor.do_oop_full, eF, countForwards_cons_predEval]
    cases hp : p rF <;>
      simp [hp, countForwards, List.countP_cons, Event.isVisitOf, Visitor.do_oop_nv_full]
  · intro hp
    rw [Visitor.do_oop_full, eF, hp]
    simp [Visitor.do_oop_nv_full]
  · intro hp
    rw [Visitor.do_oop_full, eF, hp]
    simp
  · rw [Visitor.do_oop_narrow, eN, countForwards_cons_predEval]
    cases hp : p rN <;>
      simp [hp, countForwards, List.countP_cons, Event.isVisitOf, Visitor.do_oop_nv_narrow]
  · intro hp
    rw [Visitor.do_oop_narrow, eN, hp]
    simp [Visitor.do_oop_nv_narrow]
  · intro hp
    rw [Visitor.do_oop_narrow, eN, hp]
    simp

/-- Witness for C1 at concrete inputs: slot word 50 decodes to referent 50,
the narrow slot word 3 with base 40 and shift 0 decodes to referent 43, the
predicate is membership below boundary 100, and the full-width entry forwards
the original slot to inner visitor 7 exactly once. -/
theorem C1_predicate_gating_witness :
    decode_oop (50 : Nat) = some 50 ∧
    decode_narrow 40 0 3 = some 43 ∧
    (Visitor.filter (fun r => decide (r < 100)) (Visitor.plain 7)).do_oop_full ⟨1, 50⟩
      = [Event.predEval 50 true, Event.visitFull 7 ⟨1, 50⟩] := by
  refine ⟨by decide, by decide, ?_⟩
  exact (C1_predicate_gating (fun r => decide (r < 100)) 7 ⟨1, 50⟩ ⟨2, 3⟩ 40 0 50 43
    (by decide) (by decide)).2.1 (by decide)

/-- Claim C2 (null safety): for a slot whose decoded referent is null, the
visit of FilteringVisitor, in either encoding, produces no events at all: it
forwards nothing to the inner visitor (whatever that inner visitor is) and
evaluates the predicate zero times. -/
theorem C2_null_safety (p : Nat → Bool) (inner : Visitor) (sF sN : RawSlot)
    (base shiftAmt : Nat)
    (hF : decode_oop sF.word = none)
    (hN : decode_narrow base shiftAmt sN.word = none) :
    (Visitor.filter p inner).do_oop_full sF = []
    ∧ (Visitor.filter p inner).do_oop_narrow base shiftAmt sN = []
    ∧ countPredEvals ((Visitor.filter p inner).do_oop_full sF) = 0
    ∧ countPredEvals ((Visitor.filter p inner).do_oop_narrow base shiftAmt sN) = 0
    ∧ (∀ j : Nat, countForwards j ((Visitor.filter p inner).do_oop_full sF) = 0)
    ∧ (∀ j : Nat,
        countForwards j ((Visitor.filter p inner).do_oop_narrow base shiftAmt sN) = 0) := by
  have eF := do_oop_nv_full_filter_null p inner sF hF
  have eN := do_oop_nv_narrow_filter_null base shiftAmt p inner sN hN
  refine ⟨?_, ?_, ?_, ?_, ?_, ?_⟩ <;>
    simp [Visitor.do_oop_full, Visitor.do_oop_narrow, eF, eN, countPredEvals, countForwards]

/-- Witness for C2: the all-zero slot decodes to null in both encodings and
the filtering visit on it is the empty trace. -/
theorem C2_null_safety_witness :
    decode_oop (0 : Nat) = none ∧
    decode_narrow 40 0 0 = none ∧
    (Visitor.filter (fun r => decide (r < 100)) (Visitor.plain 7)).do_oop_full ⟨5, 0⟩
      = [] := by
  refine ⟨by decide, by decide, ?_⟩
  exact (C2_null_safety (fun r => decide (r < 100)) (Visitor.plain 7) ⟨5, 0⟩ ⟨6, 0⟩ 40 0
    (by decide) (by decide)).1

/-- Claim C3 (dispatch equivalence): for every visitor and every layout (a
slot list in its fixed layout-defined order), the specialized traversal
(static dispatch through do_oop_nv) and the generic traversal (virtual
dispatch through do_oop) produce identical event sequences: same slots, same
order, same encoding. -/
theorem C3_dispatch_equivalence (base shiftAmt : Nat) (v : Visitor) (L : List Slot) :
    oop_iterate_specialized base shiftAmt v L = oop_iterate_generic base shiftAmt v L := by
  induction L with
  | nil => rfl
  | cons sl rest ih =>
      cases sl <;>
        simp [oop_iterate_generic, oop_iterate_specialized, Visitor.visitSlot,
          Visitor.visitSlot_nv, Visitor.do_oop_full, Visitor.do_oop_narrow, ih]

/-- Claim C4 (encoding symmetry): when a full-width slot and a narrow slot
decode to the same logical reference, the two entry points of
FilteringVisitor reach the same forward/skip decision (equal forward counts),
and when they forward, each calls the entry point of the inner visitor of its
own matching encoding, with its own original slot. -/
theorem C4_encoding_symmetry (p : Nat → Bool) (innerId : Nat) (sF sN : RawSlot)
    (base shiftAmt : Nat)
    (h : decode_oop sF.word = decode_narrow base shiftAmt sN.word) :
    countForwards innerId ((Visitor.filter p (Visitor.plain innerId)).do_oop_full sF)
      = countForwards innerId
          ((Visitor.filter p (Visitor.plain innerId)).do_oop_narrow base shiftAmt sN)
    ∧ (∀ r : Nat, decode_oop sF.word = some r →
        (p r = true →
          (Visitor.filter p (Visitor.plain innerId)).do_oop_full sF
            = [Event.predEval r true, Event.visitFull innerId sF]
          ∧ (Visitor.filter p (Visitor.plain innerId)).do_oop_narrow base shiftAmt sN
            = [Event.predEval r true, Event.visitNarrow innerId sN])
        ∧ (p r = false →
          (Visitor.filter p (Visitor.plain innerId)).do_oop_full sF
            = [Event.predEval r false]
          ∧ (Visitor.filter p (Visitor.plain innerId)).do_oop_narrow base shiftAmt sN
            = [Event.predEval r false])) := by
  cases hd : decode_oop sF.word with
  | none =>
      have hn : decode_narrow base shiftAmt sN.word = none := by rw [← h, hd]
      refine ⟨?_, ?_⟩
      · rw [Visitor.do_oop_full, Visitor.do_oop_narrow,
          do_oop_nv_full_filter_null p _ sF hd,
          do_oop_nv_narrow_filter_null base shiftAmt p _ sN hn]
      · intro r hr
        exact absurd hr (by simp)
  | some r0 =>
      have hn : decode_narrow base shiftAmt sN.word = some r0 := by rw [← h, hd]
      have eF := do_oop_nv_full_filter p (Visitor.plain innerId) sF r0 hd
      have eN := do_oop_nv_narrow_filter base shiftAmt p (Visitor.plain innerId) sN r0 hn
      refine ⟨?_, ?_⟩
      · rw [Visitor.do_oop_full, Visitor.do_oop_narrow, eF, eN,
          countForwards_cons_predEval, countForwards_cons_predEval]
        cases hp : p r0 <;>
          simp [hp, countForwards, List.countP_cons, Event.isVisitOf,
            Visitor.do_oop_nv_full, Visitor.do_oop_nv_narrow]
      · intro r hr
        injection hr with hr0
        subst hr0
        constructor
        · intro hp
          rw [Visitor.do_oop_full, Visitor.do_oop_narrow, eF, eN, hp]
          simp [Visitor.do_oop_nv_full, Visitor.do_oop_nv_narrow]
        · intro hp
          rw [Visitor.do_oop_full, Visitor.do_oop_narrow, eF, eN, hp]
          simp

/-- Witness for C4 at concrete inputs: the full slot word 43 and the narrow
slot word 3 under base 40, shift 0 decode to the same referent 43, and the
two entry points make the same forward decision for inner visitor 7. -/
theorem C4_encoding_symmetry_witness :
    decode_oop (43 : Nat) = decode_narrow 40 0 3 ∧
    countForwards 7
        ((Visitor.filter (fun r => decide (r < 100)) (Visitor.plain 7)).do_oop_full ⟨1, 43⟩)
      = countForwards 7
          ((Visitor.filter (fun r => decide (r < 100))
              (Visitor.plain 7)).do_oop_narrow 40 0 ⟨2, 3⟩) := by
  refine ⟨by decide, ?_⟩
  exact (C4_encoding_symmetry (fun r => decide (r < 100)) 7 ⟨1, 43⟩ ⟨2, 3⟩ 40 0
    (by decide)).1

/-- Claim C5 (build-time inertness): with the Serial GC variant excluded the
generator emits no specialized entry point at all, and under every
configuration each emitted specialized entry point agrees with the generic
(polymorphic) traversal on all inputs, so the generic path behaves
identically — correctly — whichever specialized variants are present. -/
theorem C5_build_inertness :
    emittedSpecializations ⟨false⟩ = []
    ∧ ∀ cfg : BuildConfig, ∀ f ∈ emittedSpecializations cfg,
        ∀ (base shiftAmt : Nat) (v : Visitor) (L : List Slot),
          f base shiftAmt v L = oop_iterate_generic base shiftAmt v L := by
  constructor
  · simp [emittedSpecializations]
  · intro cfg f hf base shiftAmt v L
    have hf0 : f = oop_iterate_specialized := by
      rcases cfg with ⟨b⟩
      cases b <;> simp_all [emittedSpecializations]
    subst hf0
    induction L with
    | nil => rfl
    | cons sl rest ih =>
        cases sl <;>
          simp [oop_iterate_generic, oop_iterate_specialized, Visitor.visitSlot,
            Visitor.visitSlot_nv, Visitor.do_oop_full, Visitor.do_oop_narrow, ih]

/-- Witness for C5: the entry point emitted under the configuration that
includes the Serial GC variant agrees with the generic traversal on a
concrete one-slot layout. -/
theorem C5_build_inertness_witness :
    oop_iterate_specialized 0 0 (Visitor.plain 7) [Slot.full ⟨0, 5⟩]
      = oop_iterate_generic 0 0 (Visitor.plain 7) [Slot.full ⟨0, 5⟩] :=
  C5_build_inertness.2 ⟨true⟩ oop_iterate_specialized (by simp [emittedSpecializations])
    0 0 (Visitor.plain 7) [Slot.full ⟨0, 5⟩]

/-- Claim C6 (idempotent wrapping): stacking filtering decorators composes
their predicates conjunctively — for a slot with a non-null decoded referent,
in either encoding, the innermost visitor is reached exactly once when every
layered predicate holds on the referent, and never otherwise. -/
theorem C6_idempotent_wrapping (ps : List (Nat → Bool)) (innerId : Nat)
    (sF sN : RawSlot) (base shiftAmt rF rN : Nat)
    (hF : decode_oop sF.word = some rF)
    (hN : decode_narrow base shiftAmt sN.word = some rN) :
    countForwards innerId ((nestFilters ps (Visitor.plain innerId)).do_oop_full sF)
      = (if ps.all (fun p => p rF) then 1 else 0)
    ∧ countForwards innerId
        ((nestFilters ps (Visitor.plain innerId)).do_oop_narrow base shiftAmt sN)
      = (if ps.all (fun p => p rN) then 1 else 0) := by
  constructor
  · rw [Visitor.do_oop_full]
    exact countForwards_nestFilters_full ps innerId sF rF hF
  · rw [Visitor.do_oop_narrow]
    exact countForwards_nestFilters_narrow base shiftAmt ps innerId sN rN hN

/-- Witness for C6 at concrete inputs: two stacked filters (below boundary
100, above 10) on referent 50 both hold, so inner visitor 7 is reached
exactly once on the full-width path. -/
theorem C6_idempotent_wrapping_witness :
    decode_oop (50 : Nat) = some 50 ∧
    countForwards 7
        ((nestFilters [fun r => decide (r < 100), fun r => decide (10 < r)]
            (Visitor.plain 7)).do_oop_full ⟨1, 50⟩)
      = (if ([fun r => decide (r < 100), fun r => decide (10 < r)]).all
            (fun p => p 50) then 1 else 0) := by
  refine ⟨by decide, ?_⟩
  exact (C6_idempotent_wrapping [fun r => decide (r < 100), fun r => decide (10 < r)]
    7 ⟨1, 50⟩ ⟨2, 3⟩ 40 0 50 43 (by decide) (by decide)).1

/-- Claim C7 (example scenario): on a 3-slot layout where slot 1 references
address 50 (inside the region below boundary 100), slot 2 is null and slot 3
references address 200 (outside the region), the filtering traversal forwards
only slot 1 to inner visitor 7; slot 2 triggers no predicate evaluation, and
slot 3 evaluates the predicate once, to false, and is skipped. -/
theorem C7_example_scenario :
    oop_iterate_generic 0 0
        (Visitor.filter (fun r => decide (r < 100)) (Visitor.plain 7))
        [Slot.full ⟨0, 50⟩, Slot.full ⟨1, 0⟩, Slot.full ⟨2, 200⟩]
      = [Event.predEval 50 true, Event.visitFull 7 ⟨0, 50⟩, Event.predEval 200 false]
    ∧ countForwards 7
        ((Visitor.filter (fun r => decide (r < 100))
            (Visitor.plain 7)).do_oop_full ⟨0, 50⟩) = 1
    ∧ (Visitor.filter (fun r => decide (r < 100))
          (Visitor.plain 7)).do_oop_full ⟨1, 0⟩ = []
    ∧ countPredEvals
        ((Visitor.filter (fun r => decide (r < 100))
            (Visitor.plain 7)).do_oop_full ⟨1, 0⟩) = 0
    ∧ countPredEvals
        ((Visitor.filter (fun r => decide (r < 100))
            (Visitor.plain 7)).do_oop_full ⟨2, 200⟩) = 1
    ∧ countForwards 7
        ((Visitor.filter (fun r => decide (r < 100))
            (Visitor.plain 7)).do_oop_full ⟨2, 200⟩) = 0 := by
  refine ⟨?_, ?_, ?_, ?_, ?_, ?_⟩ <;> decide

/-- Claim C8 (bounded synchronous completion): visiting one slot through
either entry point is a total computation whose event trace is bounded by the
structural size of the visitor — each decorator layer contributes at most one
predicate evaluation and the base visitor at most one call, with no
unbounded work per slot. -/
theorem C8_bounded_completion (v : Visitor) (s : RawSlot) (base shiftAmt : Nat) :
    (v.do_oop_full s).length ≤ v.size
    ∧ (v.do_oop_narrow base shiftAmt s).length ≤ v.size := by
  induction v with
  | plain id =>
      simp [Visitor.do_oop_full, Visitor.do_oop_narrow, Visitor.do_oop_nv_full,
        Visitor.do_oop_nv_narrow, Visitor.size]
  | filter p inner ih =>
      rw [Visitor.do_oop_full, Visitor.do_oop_narrow] at ih ⊢
      have ihF := ih.1
      have ihN := ih.2
      constructor
      · cases hd : decode_oop s.word with
        | none =>
            rw [do_oop_nv_full_filter_null p inner s hd]
            simp [Visitor.size]
        | some r =>
            rw [do_oop_nv_full_filter p inner s r hd]
            cases hp : p r
            · simp [hp, Visitor.size]
            · simp [hp, Visitor.size, ihF]
      · cases hd : decode_narrow base shiftAmt s.word with
        | none =>
            rw [do_oop_nv_narrow_filter_null base shiftAmt p inner s hd]
            simp [Visitor.size]
        | some r =>
            rw [do_oop_nv_narrow_filter base shiftAmt p inner s r hd]
            cases hp : p r
            · simp [hp, Visitor.size]
            · simp [hp, Visitor.size, ihN]

/-- Claim C9 (virtual/non-virtual coincidence): for every visitor and slot,
in either encoding, the virtual entry point do_oop is exactly a call to the
non-virtual do_oop_nv — it adds no computation before or after, so the two
per-slot paths are equal. -/
theorem C9_virtual_nonvirtual_coincidence (v : Visitor) (s : RawSlot)
    (base shiftAmt : Nat) :
    v.do_oop_full s = v.do_oop_nv_full s
    ∧ v.do_oop_narrow base shiftAmt s = v.do_oop_nv_narrow base shiftAmt s :=
  ⟨rfl, rfl⟩

/-- Claim C10 (decorator state preservation): a visit of the filtering
decorator, under any decoding (hence either encoding) and any inner visitor
behaviour, returns the decorator fields unchanged — the predicate
configuration and the non-owning inner reference after the call are those
before it; only the slot word and the inner state may change. -/
theorem C10_decorator_state_preservation {σ : Type} (decode : Nat → Option Nat)
    (innerVisit : σ → Nat → σ × Nat) (fc : FilteringClosureFields) (st : σ)
    (w : Nat) :
    (do_oop_stateful decode innerVisit fc st w).1 = fc
    ∧ ((do_oop_stateful decode innerVisit fc st w).1).pred = fc.pred
    ∧ ((do_oop_stateful decode innerVisit fc st w).1).cl = fc.cl := by
  rw [do_oop_stateful]
  cases decode w with
  | none => exact ⟨rfl, rfl, rfl⟩
  | some r =>
      by_cases hp : fc.pred r = true
      · simp [hp]
      · simp [hp]

end GenOopClosures
